import Mathlib

/-!
Verification of the Water Plant MCP server (`src/server.py`).

The server keeps a single on-disk cache file (`tools/shopfloor_tool_contract.json`),
refreshed by `sync_tool_contract`, and serves four query functions over it:
`list_operations`, `extract_info`, `simulate_operation` and `list_plant_zones`
(the last via `fetch_csv`).  We give a shallow embedding: Python values parsed
from JSON become the inductive `PyVal`; Python exceptions become the error side
of `Except PyError`; the cache file as seen by the query functions becomes
`CacheView` (absent / present-but-unparseable / parsed); the filesystem state
touched by `sync_tool_contract` becomes `FsState`; an HTTP GET outcome becomes
`HttpResult`.
-/

namespace WaterPlant

/-- A Python value as produced by `json.load` / manipulated by the server:
`None`, `bool`, `int`, `str`, `list`, `dict` (dicts keep insertion order;
JSON-parsed dicts have string keys). -/
inductive PyVal where
  | null
  | bool (b : Bool)
  | int (n : Int)
  | str (s : String)
  | list (xs : List PyVal)
  | dict (kvs : List (String × PyVal))
deriving Repr

/-- The Python exceptions the server's query functions can raise. -/
inductive PyError where
  /-- raised by `json.load` on an unparseable cache file -/
  | jsonDecodeError
  /-- raised by `.get` / `.items` / `.keys` on a non-dict -/
  | attributeError
  /-- raised by `d[k]` on a dict missing `k` -/
  | keyError (k : String)
  /-- raised by subscripting / iterating / `in` on an unsupported type -/
  | typeError
  /-- raised by `requests.get` or `response.raise_for_status` -/
  | requestError (e : String)
deriving Repr, DecidableEq

/-- Ordered-dict lookup (first, hence only, binding of a key). -/
def dictLookup : List (String × PyVal) → String → Option PyVal
  | [], _ => none
  | (k', v) :: rest, k => if k' = k then some v else dictLookup rest k

/-- Ordered-dict update `d[k] = v`: an existing key keeps its position and gets
the new value; a new key is appended.  This is Python dict-assignment
semantics, which dict comprehensions use entry by entry. -/
def dictInsert : List (String × PyVal) → String → PyVal → List (String × PyVal)
  | [], k, v => [(k, v)]
  | (k', v') :: rest, k, v =>
      if k' = k then (k, v) :: rest else (k', v') :: dictInsert rest k v

/-- Models `v.get(key, default)`: only dicts have `.get`; anything else raises
`AttributeError`. -/
def pyGet : PyVal → String → PyVal → Except PyError PyVal
  | .dict kvs, k, dflt => .ok ((dictLookup kvs k).getD dflt)
  | _, _, _ => .error .attributeError

/-- Models `v[key]` for a string key: dict lookup (raising `KeyError` when the
key is missing), `TypeError` on any non-dict. -/
def pySubscript : PyVal → String → Except PyError PyVal
  | .dict kvs, k =>
      match dictLookup kvs k with
      | some v => .ok v
      | none => .error (.keyError k)
  | _, _ => .error .typeError

/-- Whether `needle` is a prefix of `hay` (on character lists). -/
def charsStart : List Char → List Char → Bool
  | [], _ => true
  | _ :: _, [] => false
  | a :: as, b :: bs => a = b && charsStart as bs

/-- Whether `sub` occurs inside `s` (on character lists). -/
def charsContain (s sub : List Char) : Bool :=
  match s with
  | [] => sub.isEmpty
  | _ :: tail => charsStart sub s || charsContain tail sub

/-- Substring test, as Python `sub in s` on strings. -/
def strContains (s sub : String) : Bool :=
  charsContain s.toList sub.toList

/-- Models `key in v` for a string `key`: key test on dicts, substring test on
strings, element test on lists (a `str` needle equals only `str` elements),
`TypeError` otherwise. -/
def pyContains : PyVal → String → Except PyError Bool
  | .dict kvs, k => .ok (kvs.any fun kv => kv.1 = k)
  | .str s, k => .ok (strContains s k)
  | .list xs, k =>
      .ok (xs.any fun x => match x with | .str s => s = k | _ => false)
  | _, _ => .error .typeError

/-- Models `v.keys()` (materialized by `list(...)`): dicts only. -/
def pyKeys : PyVal → Except PyError (List String)
  | .dict kvs => .ok (kvs.map Prod.fst)
  | _ => .error .attributeError

/-- Models `v.items()`: dicts only. -/
def pyItems : PyVal → Except PyError (List (String × PyVal))
  | .dict kvs => .ok kvs
  | _ => .error .attributeError

/-- Models `for o in v`: lists yield their elements, strings their characters,
dicts their keys; other values raise `TypeError`. -/
def pyIter : PyVal → Except PyError (List PyVal)
  | .list xs => .ok xs
  | .str s => .ok (s.toList.map fun c => .str (String.singleton c))
  | .dict kvs => .ok (kvs.map fun kv => .str kv.1)
  | _ => .error .typeError

/-- Escapes one character of a Python `repr` of a string (the server only ever
interpolates scalars, so this container fallback stays off every claim path). -/
def reprEscapeChar (c : Char) : String :=
  if c = '\\' then "\\\\"
  else if c = Char.ofNat 39 then "\\" ++ String.singleton (Char.ofNat 39)
  else String.singleton c

/-- Python `repr` of a string, single-quoted. -/
def strRepr (s : String) : String :=
  String.singleton (Char.ofNat 39)
    ++ String.join (s.toList.map reprEscapeChar)
    ++ String.singleton (Char.ofNat 39)

mutual

/-- Models `str(v)` as used by f-string interpolation: strings verbatim, `int`
decimal, `True` / `False`, `None`; containers fall back to their `repr`. -/
def pyStr : PyVal → String
  | .str s => s
  | .int n => toString n
  | .bool b => if b then "True" else "False"
  | .null => "None"
  | .list xs => "[" ++ pyReprList xs ++ "]"
  | .dict kvs => "\x7b" ++ pyReprDict kvs ++ "\x7d"

/-- Models `repr(v)` (strings single-quoted). -/
def pyRepr : PyVal → String
  | .str s => strRepr s
  | .int n => toString n
  | .bool b => if b then "True" else "False"
  | .null => "None"
  | .list xs => "[" ++ pyReprList xs ++ "]"
  | .dict kvs => "\x7b" ++ pyReprDict kvs ++ "\x7d"

def pyReprList : List PyVal → String
  | [] => ""
  | [x] => pyRepr x
  | x :: y :: rest => pyRepr x ++ ", " ++ pyReprList (y :: rest)

def pyReprDict : List (String × PyVal) → String
  | [] => ""
  | [(k, v)] => strRepr k ++ ": " ++ pyRepr v
  | (k, v) :: kv :: rest => strRepr k ++ ": " ++ pyRepr v ++ ", " ++ pyReprDict (kv :: rest)

end

/-- Lower-case hex digit, as CPython's `json` encoder emits. -/
def hexDigit (n : Nat) : Char :=
  if n < 10 then Char.ofNat (48 + n) else Char.ofNat (87 + n)

/-- Four lower-case hex digits. -/
def hex4 (n : Nat) : String :=
  String.mk [hexDigit (n / 4096 % 16), hexDigit (n / 256 % 16),
             hexDigit (n / 16 % 16), hexDigit (n % 16)]

/-- Escapes one character as `json.dumps` (default `ensure_ascii=True`) does:
`\"`, `\\`, the short escapes, and `\uXXXX` (with surrogate pairs beyond the
BMP) for everything outside printable ASCII. -/
def jsonEscapeChar (c : Char) : String :=
  if c = '"' then "\\\""
  else if c = '\\' then "\\\\"
  else if c = '\n' then "\\n"
  else if c = '\r' then "\\r"
  else if c = '\t' then "\\t"
  else if c = Char.ofNat 8 then "\\b"
  else if c = Char.ofNat 12 then "\\f"
  else if c.toNat < 32 ∨ c.toNat > 126 then
    if c.toNat ≤ 65535 then "\\u" ++ hex4 c.toNat
    else
      "\\u" ++ hex4 (55296 + (c.toNat - 65536) / 1024)
        ++ "\\u" ++ hex4 (56320 + (c.toNat - 65536) % 1024)
  else String.singleton c

def jsonEscape (s : String) : String :=
  String.join (s.toList.map jsonEscapeChar)

def nspaces (n : Nat) : String :=
  String.mk (List.replicate n ' ')

mutual

/-- Models `json.dumps(v, indent=2)` rendered at nesting level `lvl` (the
top-level call is `jsonDumps 0`): scalars as JSON literals, strings escaped per
`jsonEscapeChar`, containers spread over lines indented by `2 * level`. -/
def jsonDumps (lvl : Nat) : PyVal → String
  | .null => "null"
  | .bool b => if b then "true" else "false"
  | .int n => toString n
  | .str s => "\"" ++ jsonEscape s ++ "\""
  | .list [] => "[]"
  | .list (x :: xs) =>
      "[\n" ++ jsonDumpsList (lvl + 1) (x :: xs) ++ "\n" ++ nspaces (2 * lvl) ++ "]"
  | .dict [] => "\x7b\x7d"
  | .dict (kv :: kvs) =>
      "\x7b\n" ++ jsonDumpsKVs (lvl + 1) (kv :: kvs) ++ "\n" ++ nspaces (2 * lvl) ++ "\x7d"

def jsonDumpsList (lvl : Nat) : List PyVal → String
  | [] => ""
  | [x] => nspaces (2 * lvl) ++ jsonDumps lvl x
  | x :: y :: rest =>
      nspaces (2 * lvl) ++ jsonDumps lvl x ++ ",\n" ++ jsonDumpsList lvl (y :: rest)

def jsonDumpsKVs (lvl : Nat) : List (String × PyVal) → String
  | [] => ""
  | [(k, v)] => nspaces (2 * lvl) ++ "\"" ++ jsonEscape k ++ "\": " ++ jsonDumps lvl v
  | (k, v) :: kv :: rest =>
      nspaces (2 * lvl) ++ "\"" ++ jsonEscape k ++ "\": " ++ jsonDumps lvl v
        ++ ",\n" ++ jsonDumpsKVs lvl (kv :: rest)

end

/-- The cache file as the query functions see it: `absent` models
`os.path.exists(TOOL_FILE)` false; `malformed` models a present file on which
`json.load` raises `JSONDecodeError` (e.g. content `"{"`); `parsed v` models a
present file that `json.load` parses to `v`. -/
inductive CacheView where
  | absent
  | malformed
  | parsed (v : PyVal)

/-- Embedding of `list_operations` (server.py lines 69-75): missing-file
sentinel, else `list(data.get("operations", {}).keys())`. -/
def list_operations (cache : CacheView) : Except PyError (List String) :=
  match cache with
  | .absent => .ok ["Tool contract not found."]
  | .malformed => .error .jsonDecodeError
  | .parsed data => do
      let ops ← pyGet data "operations" (.dict [])
      pyKeys ops

/-- Embedding of `extract_info` (server.py lines 77-84): missing-file sentinel,
else `json.dumps(ops.get(operation_id, f"No data for {operation_id}"), indent=2)`. -/
def extract_info (cache : CacheView) (operation_id : String) : Except PyError String :=
  match cache with
  | .absent => .ok "Tool contract missing."
  | .malformed => .error .jsonDecodeError
  | .parsed data => do
      let ops ← pyGet data "operations" (.dict [])
      let v ← pyGet ops operation_id (.str ("No data for " ++ operation_id))
      return jsonDumps 0 v

/-- The `mock_inputs` dict comprehension of `simulate_operation`
(`{k: f"<{v.get('type', 'unknown')}>" for k, v in op.get("inputs", {}).items()}`),
accumulating with dict-assignment semantics. -/
def mockInputsAux (acc : List (String × PyVal)) :
    List (String × PyVal) → Except PyError (List (String × PyVal))
  | [] => .ok acc
  | (k, v) :: rest => do
      let t ← pyGet v "type" (.str "unknown")
      mockInputsAux (dictInsert acc k (.str ("<" ++ pyStr t ++ ">"))) rest

/-- The `mock_outputs` dict comprehension of `simulate_operation`
(`{o["name"]: f"<{o['type']}>" for o in op.get("outputs", [])}`).  The model
restricts dict keys to strings, so a non-string `o["name"]` is reported as
`TypeError` here; every claim below only exercises string names. -/
def mockOutputsAux (acc : List (String × PyVal)) :
    List PyVal → Except PyError (List (String × PyVal))
  | [] => .ok acc
  | o :: rest => do
      let nameV ← pySubscript o "name"
      match nameV with
      | .str n => do
          let t ← pySubscript o "type"
          mockOutputsAux (dictInsert acc n (.str ("<" ++ pyStr t ++ ">"))) rest
      | _ => .error .typeError

/-- The tail of `simulate_operation` once `op = ops[operation_id]` is bound
(server.py lines 97-111): builds and serializes the mock record
`{operation_id, description, cypher, mock_inputs, mock_outputs}` with the
result-dict values evaluated in source order. -/
def simulateFound (operation_id : String) (op : PyVal) : Except PyError String := do
  let desc ← pyGet op "description" (.str "")
  let cy ← pyGet op "cypher" (.str "")
  let ins ← pyGet op "inputs" (.dict [])
  let insKvs ← pyItems ins
  let mi ← mockInputsAux [] insKvs
  let outsV ← pyGet op "outputs" (.list [])
  let outs ← pyIter outsV
  let mo ← mockOutputsAux [] outs
  return jsonDumps 0 (.dict
    [("operation_id", .str operation_id),
     ("description", desc),
     ("cypher", cy),
     ("mock_inputs", .dict mi),
     ("mock_outputs", .dict mo)])

/-- Embedding of `simulate_operation` (server.py lines 86-111): missing-file
sentinel; unknown-id literal sentinel; otherwise `simulateFound`. -/
def simulate_operation (cache : CacheView) (operation_id : String) :
    Except PyError String :=
  match cache with
  | .absent => .ok "Tool contract not found."
  | .malformed => .error .jsonDecodeError
  | .parsed data => do
      let ops ← pyGet data "operations" (.dict [])
      let mem ← pyContains ops operation_id
      if !mem then
        return "No such operation: " ++ operation_id
      else do
        let op ← pySubscript ops operation_id
        simulateFound operation_id op

/-- Outcome of one `requests.get` as the server observes it: `failure e` models
a raised exception (network error, or `raise_for_status` on a non-2xx reply,
with message `e`); `success text` models a 2xx reply whose decoded body is
`text`. -/
inductive HttpResult where
  | failure (e : String)
  | success (text : String)

/-- A cell of a `csv.DictReader` row dict: a parsed field, the `restval`
`None` padding for a short row, or the `restkey` list of extras of a long row. -/
inductive CsvCell where
  | str (s : String)
  | null
  | rest (vs : List String)
deriving Repr, DecidableEq

/-- Dict assignment `d[k] = v` for DictReader row dicts (key `none` is the
`restkey` `None`). -/
def rowInsert : List (Option String × CsvCell) → Option String → CsvCell →
    List (Option String × CsvCell)
  | [], k, v => [(k, v)]
  | (k', v') :: tail, k, v =>
      if k' = k then (k, v) :: tail else (k', v') :: rowInsert tail k v

/-- Replaces `\r\n` and bare `\r` line terminators with `\n`. -/
def normalizeNewlines : List Char → List Char
  | [] => []
  | '\r' :: '\n' :: rest => '\n' :: normalizeNewlines rest
  | '\r' :: rest => '\n' :: normalizeNewlines rest
  | c :: rest => c :: normalizeNewlines rest

/-- Splits a character list on a separator character (no separator yields one
group). -/
def splitOnChar (sep : Char) : List Char → List (List Char)
  | [] => [[]]
  | c :: rest =>
      match splitOnChar sep rest with
      | [] => if c = sep then [[], []] else [[c]]
      | grp :: grps => if c = sep then [] :: grp :: grps else (c :: grp) :: grps

/-- Splits a response body into the lines the `csv` reader consumes: `\r\n`,
`\r` and `\n` all end a line, and a final line terminator adds no extra line. -/
def csvSplitLines (text : String) : List String :=
  let parts := (splitOnChar '\n' (normalizeNewlines text.toList)).map String.mk
  if parts.getLast? = some "" then parts.dropLast else parts

/-- One parsed CSV record, for the default dialect on bodies without quote
characters (all the claims exercise only such bodies): an empty line is the
empty record, otherwise fields are split on commas. -/
def csvRow (line : String) : List String :=
  if line = "" then [] else (splitOnChar ',' line.toList).map String.mk

/-- Builds one `csv.DictReader` row dict from the header and a record:
`dict(zip(fieldnames, row))`, then the extras under `restkey=None` when the
row is longer, or `restval=None` padding when it is shorter. -/
def dictRow (fieldnames row : List String) : List (Option String × CsvCell) :=
  let base := (List.zip fieldnames row).foldl
    (fun d p => rowInsert d (some p.1) (.str p.2)) []
  if fieldnames.length < row.length then
    rowInsert base none (.rest (row.drop fieldnames.length))
  else if row.length < fieldnames.length then
    (fieldnames.drop row.length).foldl (fun d k => rowInsert d (some k) .null) base
  else base

/-- Models `[row for row in csv.DictReader(StringIO(text))]`: the first record
is the header; empty records are skipped (`DictReader` skips blank rows); each
remaining record becomes a row dict. -/
def dictReaderRows (text : String) : List (List (Option String × CsvCell)) :=
  match (csvSplitLines text).map csvRow with
  | [] => []
  | header :: body => (body.filter (fun r => r ≠ [])).map (dictRow header)

/-- The body of `fetch_csv`'s `try` block (server.py lines 57-61): the GET and
`raise_for_status` can raise; a 2xx body is read by `csv.DictReader`, which for
the default dialect accepts any text. -/
def fetch_csv_attempt : HttpResult → Except PyError (List (List (Option String × CsvCell)))
  | .failure e => .error (.requestError e)
  | .success text => .ok (dictReaderRows text)

/-- Embedding of `fetch_csv` (server.py lines 55-64): the blanket
`except Exception` turns any raised error into `[]` (after printing), so the
function is total. -/
def fetch_csv (file_name : String) (resp : HttpResult) :
    List (List (Option String × CsvCell)) :=
  let _ := file_name
  match fetch_csv_attempt resp with
  | .ok rows => rows
  | .error _ => []

/-- Embedding of `list_plant_zones` (server.py lines 113-115). -/
def list_plant_zones (resp : HttpResult) : List (List (Option String × CsvCell)) :=
  fetch_csv "nodes_plantzones.csv" resp

/-- The filesystem state `sync_tool_contract` touches: whether the tool
directory exists, and the cache file's text (`none` = no file). -/
structure FsState where
  dirExists : Bool
  cacheFile : Option String
deriving Repr, DecidableEq

/-- Embedding of `sync_tool_contract` (server.py lines 44-53):
`os.makedirs(TOOL_DIR, exist_ok=True)` first, then the guarded fetch; on
success the file is overwritten with the response text and the status reports
`len(response.text)`; on failure the state is left as is and the error is
folded into the status string. -/
def sync_tool_contract (resp : HttpResult) (s : FsState) : FsState × String :=
  let s1 : FsState := { s with dirExists := true }
  match resp with
  | .success text =>
      ({ s1 with cacheFile := some text },
       "[SYNC] Water plant tool contract synced (" ++ toString text.length ++ " bytes)")
  | .failure e =>
      (s1, "[SYNC ERROR] Failed to fetch tool contract: " ++ e)

/-! ## Derived notions used by the claims -/

/-- The operations mapping that `data.get("operations", {})` yields when the
parsed document `v` is a dict and the `operations` value (or its `{}` default)
is a dict: `some` of that mapping's entries, `none` otherwise. -/
def contractOps (v : PyVal) : Option (List (String × PyVal)) :=
  match v with
  | .dict d =>
      match dictLookup d "operations" with
      | some (.dict ops) => some ops
      | some _ => none
      | none => some []
  | _ => none

/-- Number of entries of an operations-style dict carrying key `k`. -/
def countKey (kvs : List (String × PyVal)) (k : String) : Nat :=
  (kvs.filter fun kv => kv.1 = k).length

/-- Value of the last pair with first component `n`, scanning left to right. -/
def lastVal : List (String × String) → String → Option String
  | [], _ => none
  | (m, t) :: rest, n =>
      match lastVal rest n with
      | some r => some r
      | none => if m = n then some t else none

/-- Well-formedness of one output declaration, as `simulate_operation`'s
`mock_outputs` comprehension needs it: a dict with a string `name` and some
`type`. -/
def outputWF : PyVal → Bool
  | .dict kvs =>
      (match dictLookup kvs "name" with
       | some (.str _) => true
       | _ => false)
      && (dictLookup kvs "type").isSome
  | _ => false

/-- Well-formedness of one operation spec, as `simulate_operation` needs it: a
dict whose `inputs` value (when present) is a dict of dicts and whose
`outputs` value (when present) is a list of well-formed output declarations. -/
def specWF : PyVal → Bool
  | .dict kvs =>
      (match dictLookup kvs "inputs" with
       | some (.dict ins) =>
           ins.all fun kv => match kv.2 with | .dict _ => true | _ => false
       | some _ => false
       | none => true)
      && (match dictLookup kvs "outputs" with
          | some (.list os) => os.all outputWF
          | some _ => false
          | none => true)
  | _ => false

/-- Well-formedness of a parsed contract document: a dict whose `operations`
value (when present) is a dict of well-formed operation specs. -/
def contractWF : PyVal → Bool
  | .dict d =>
      match dictLookup d "operations" with
      | some (.dict ops) => ops.all fun kv => specWF kv.2
      | some _ => false
      | none => true
  | _ => false

/-- The outputs list of an operation spec built from (name, type) pairs. -/
def mkOutputs (os : List (String × String)) : List PyVal :=
  os.map fun p => .dict [("name", .str p.1), ("type", .str p.2)]

/-- The dict that the `mock_outputs` comprehension builds from (name, type)
pairs, starting from accumulator `acc`. -/
def outputsDictAux (acc : List (String × PyVal)) (os : List (String × String)) :
    List (String × PyVal) :=
  os.foldl (fun d p => dictInsert d p.1 (.str ("<" ++ p.2 ++ ">"))) acc

/-! ## Lemmas about the embedding -/

theorem dictLookup_dictInsert (d : List (String × PyVal)) (k n : String) (v : PyVal) :
    dictLookup (dictInsert d k v) n = if k = n then some v else dictLookup d n := by
  induction d with
  | nil => simp [dictInsert, dictLookup]
  | cons kv tail ih =>
      obtain ⟨k', v'⟩ := kv
      by_cases hk : k' = k
      · subst hk
        simp only [dictInsert, if_pos rfl, dictLookup]
        split_ifs <;> simp_all [dictLookup]
      · simp only [dictInsert, if_neg hk, dictLookup, ih]
        split_ifs <;> simp_all

theorem countKey_dictInsert_self (d : List (String × PyVal)) (k : String) (v : PyVal) :
    countKey (dictInsert d k v) k = max 1 (countKey d k) := by
  induction d with
  | nil => simp [dictInsert, countKey]
  | cons kv tail ih =>
      obtain ⟨k', v'⟩ := kv
      by_cases hk : k' = k
      · subst hk
        simp [dictInsert, countKey, List.filter]
      · simp [dictInsert, if_neg hk, countKey, List.filter, hk] at ih ⊢
        exact ih

theorem countKey_dictInsert_ne (d : List (String × PyVal)) (k n : String) (v : PyVal)
    (h : k ≠ n) : countKey (dictInsert d k v) n = countKey d n := by
  induction d with
  | nil => simp [dictInsert, countKey, List.filter, h]
  | cons kv tail ih =>
      obtain ⟨k', v'⟩ := kv
      by_cases hk : k' = k
      · subst hk
        simp [dictInsert, countKey, List.filter, h]
      · simp [dictInsert, if_neg hk, countKey, List.filter] at ih ⊢
        split <;> simp_all

theorem countKey_dictInsert_le_one (d : List (String × PyVal)) (k : String) (v : PyVal)
    (h : ∀ m, countKey d m ≤ 1) : ∀ m, countKey (dictInsert d k v) m ≤ 1 := by
  intro m
  by_cases hk : k = m
  · subst hk
    rw [countKey_dictInsert_self]
    have := h k
    omega
  · rw [countKey_dictInsert_ne _ _ _ _ hk]
    exact h m

theorem one_le_countKey (d : List (String × PyVal)) (n : String) (w : PyVal)
    (h : dictLookup d n = some w) : 1 ≤ countKey d n := by
  induction d with
  | nil => simp [dictLookup] at h
  | cons kv tail ih =>
      obtain ⟨k', v'⟩ := kv
      by_cases hk : k' = n
      · subst hk
        simp [countKey, List.filter]
      · simp [dictLookup, hk] at h
        have := ih h
        simp [countKey, List.filter, hk] at this ⊢
        omega

theorem outputsDictAux_lookup (os : List (String × String)) :
    ∀ (acc : List (String × PyVal)) (n : String),
      dictLookup (outputsDictAux acc os) n =
        match lastVal os n with
        | some t => some (.str ("<" ++ t ++ ">"))
        | none => dictLookup acc n := by
  induction os with
  | nil => intro acc n; simp [outputsDictAux, lastVal]
  | cons p rest ih =>
      intro acc n
      obtain ⟨m, t⟩ := p
      show dictLookup (outputsDictAux (dictInsert acc m (.str ("<" ++ t ++ ">"))) rest) n = _
      rw [ih]
      cases h : lastVal rest n with
      | some r => simp [lastVal, h]
      | none =>
          by_cases hm : m = n <;>
            simp [lastVal, h, dictLookup_dictInsert, hm]

theorem countKey_outputsDictAux_le_one (os : List (String × String)) :
    ∀ (acc : List (String × PyVal)), (∀ m, countKey acc m ≤ 1) →
      ∀ m, countKey (outputsDictAux acc os) m ≤ 1 := by
  induction os with
  | nil => intro acc h m; exact h m
  | cons p rest ih =>
      intro acc h m
      obtain ⟨k, t⟩ := p
      show countKey (outputsDictAux (dictInsert acc k (.str ("<" ++ t ++ ">"))) rest) m ≤ 1
      exact ih _ (countKey_dictInsert_le_one _ _ _ h) m

theorem countKey_nil_le_one : ∀ m, countKey ([] : List (String × PyVal)) m ≤ 1 := by
  intro m; simp [countKey]

theorem mockOutputsAux_mkOutputs (os : List (String × String)) :
    ∀ acc, mockOutputsAux acc (mkOutputs os) = .ok (outputsDictAux acc os) := by
  induction os with
  | nil => intro acc; rfl
  | cons p rest ih =>
      intro acc
      obtain ⟨m, t⟩ := p
      simp [mkOutputs, mockOutputsAux, pySubscript, dictLookup, pyStr, outputsDictAux] at ih ⊢
      exact ih _

theorem pyGet_operations_of_contractOps (v : PyVal) (ops : List (String × PyVal))
    (h : contractOps v = some ops) : pyGet v "operations" (.dict []) = .ok (.dict ops) := by
  cases v with
  | dict d =>
      simp only [contractOps] at h
      cases hop : dictLookup d "operations" with
      | none => rw [hop] at h; simp at h; subst h; simp [pyGet, hop]
      | some w =>
          rw [hop] at h
          cases w <;> simp_all [pyGet, hop]
  | null => simp [contractOps] at h
  | bool b => simp [contractOps] at h
  | int n => simp [contractOps] at h
  | str s => simp [contractOps] at h
  | list xs => simp [contractOps] at h

theorem pyContains_dict_true (ops : List (String × PyVal)) (k : String) (w : PyVal)
    (h : dictLookup ops k = some w) : pyContains (.dict ops) k = .ok true := by
  induction ops with
  | nil => simp [dictLookup] at h
  | cons kv tail ih =>
      obtain ⟨k', v'⟩ := kv
      by_cases hk : k' = k
      · simp [pyContains, hk]
      · simp [dictLookup, hk] at h
        have := ih h
        simp [pyContains, hk] at this ⊢
        exact this

theorem pyContains_dict_false (ops : List (String × PyVal)) (k : String)
    (h : dictLookup ops k = none) : pyContains (.dict ops) k = .ok false := by
  induction ops with
  | nil => simp [pyContains]
  | cons kv tail ih =>
      obtain ⟨k', v'⟩ := kv
      by_cases hk : k' = k
      · simp [dictLookup, hk] at h
      · simp [dictLookup, hk] at h
        have := ih h
        simp [pyContains, hk] at this ⊢
        exact this

theorem pySubscript_dict (ops : List (String × PyVal)) (k : String) (w : PyVal)
    (h : dictLookup ops k = some w) : pySubscript (.dict ops) k = .ok w := by
  simp [pySubscript, h]

theorem ok_bind (a : α) (f : α → Except PyError β) :
    (Except.ok a >>= f) = f a := rfl

theorem list_operations_parsed (v : PyVal) (ops : List (String × PyVal))
    (h : contractOps v = some ops) :
    list_operations (.parsed v) = .ok (ops.map Prod.fst) := by
  have hdef : list_operations (.parsed v) = (do
      let o ← pyGet v "operations" (.dict [])
      pyKeys o) := rfl
  rw [hdef, pyGet_operations_of_contractOps v ops h]
  rfl

theorem extract_info_parsed (v : PyVal) (ops : List (String × PyVal)) (id : String)
    (h : contractOps v = some ops) :
    extract_info (.parsed v) id =
      .ok (jsonDumps 0 ((dictLookup ops id).getD (.str ("No data for " ++ id)))) := by
  have hdef : extract_info (.parsed v) id = (do
      let o ← pyGet v "operations" (.dict [])
      let w ← pyGet o id (.str ("No data for " ++ id))
      pure (jsonDumps 0 w)) := rfl
  rw [hdef, pyGet_operations_of_contractOps v ops h]
  rfl

theorem simulate_operation_missing (v : PyVal) (ops : List (String × PyVal)) (id : String)
    (hops : contractOps v = some ops) (hid : dictLookup ops id = none) :
    simulate_operation (.parsed v) id = .ok ("No such operation: " ++ id) := by
  have hdef : simulate_operation (.parsed v) id = (do
      let o ← pyGet v "operations" (.dict [])
      let mem ← pyContains o id
      if !mem then pure ("No such operation: " ++ id)
      else do
        let w ← pySubscript o id
        simulateFound id w) := rfl
  rw [hdef, pyGet_operations_of_contractOps v ops hops]
  simp only [ok_bind]
  rw [pyContains_dict_false ops id hid]
  rfl

theorem simulate_operation_found (v : PyVal) (ops : List (String × PyVal)) (id : String)
    (op : PyVal) (hops : contractOps v = some ops) (hid : dictLookup ops id = some op) :
    simulate_operation (.parsed v) id = simulateFound id op := by
  have hdef : simulate_operation (.parsed v) id = (do
      let o ← pyGet v "operations" (.dict [])
      let mem ← pyContains o id
      if !mem then pure ("No such operation: " ++ id)
      else do
        let w ← pySubscript o id
        simulateFound id w) := rfl
  rw [hdef, pyGet_operations_of_contractOps v ops hops]
  simp only [ok_bind]
  rw [pyContains_dict_true ops id op hid]
  simp only [ok_bind]
  rw [pySubscript_dict ops id op hid]
  rfl

theorem specWF_of_lookup (ops : List (String × PyVal)) (k : String) (w : PyVal)
    (hall : (ops.all fun kv => specWF kv.2) = true) (h : dictLookup ops k = some w) :
    specWF w = true := by
  induction ops with
  | nil => simp [dictLookup] at h
  | cons kv tail ih =>
      obtain ⟨k', v'⟩ := kv
      rw [List.all_cons, Bool.and_eq_true] at hall
      by_cases hk : k' = k
      · simp [dictLookup, hk] at h
        subst h
        exact hall.1
      · simp [dictLookup, hk] at h
        exact ih hall.2 h

theorem contractOps_of_WF (v : PyVal) (h : contractWF v = true) :
    ∃ ops, contractOps v = some ops ∧ (ops.all fun kv => specWF kv.2) = true := by
  cases v with
  | dict d =>
      simp only [contractWF] at h
      cases hop : dictLookup d "operations" with
      | none => exact ⟨[], by simp [contractOps, hop], rfl⟩
      | some w =>
          rw [hop] at h
          cases w with
          | dict ops => exact ⟨ops, by simp [contractOps, hop], h⟩
          | null => simp at h
          | bool b => simp at h
          | int n => simp at h
          | str s => simp at h
          | list xs => simp at h
  | null => simp [contractWF] at h
  | bool b => simp [contractWF] at h
  | int n => simp [contractWF] at h
  | str s => simp [contractWF] at h
  | list xs => simp [contractWF] at h

theorem mockInputsAux_ok (ins : List (String × PyVal))
    (h : (ins.all fun kv => match kv.2 with | .dict _ => true | _ => false) = true) :
    ∀ acc, ∃ r, mockInputsAux acc ins = .ok r := by
  induction ins with
  | nil => intro acc; exact ⟨acc, rfl⟩
  | cons kv tail ih =>
      intro acc
      obtain ⟨k, w⟩ := kv
      rw [List.all_cons, Bool.and_eq_true] at h
      cases w with
      | dict kvs =>
          have hstep : mockInputsAux acc ((k, .dict kvs) :: tail)
              = mockInputsAux (dictInsert acc k
                  (.str ("<" ++ pyStr ((dictLookup kvs "type").getD (.str "unknown")) ++ ">")))
                  tail := rfl
          rw [hstep]
          exact ih h.2 _
      | null => simp at h
      | bool b => simp at h
      | int n => simp at h
      | str s => simp at h
      | list xs => simp at h

theorem mockOutputsAux_ok (os : List PyVal) (h : (os.all outputWF) = true) :
    ∀ acc, ∃ r, mockOutputsAux acc os = .ok r := by
  induction os with
  | nil => intro acc; exact ⟨acc, rfl⟩
  | cons o tail ih =>
      intro acc
      rw [List.all_cons, Bool.and_eq_true] at h
      obtain ⟨h1, h2⟩ := h
      cases o with
      | dict kvs =>
          simp only [outputWF, Bool.and_eq_true] at h1
          obtain ⟨hn', ht'⟩ := h1
          cases hn : dictLookup kvs "name" with
          | none => rw [hn] at hn'; simp at hn'
          | some nv =>
              rw [hn] at hn'
              cases nv <;> simp at hn'
              case str n =>
                cases ht : dictLookup kvs "type" with
                | none => rw [ht] at ht'; simp at ht'
                | some t =>
                    have hstep : mockOutputsAux acc (.dict kvs :: tail)
                        = mockOutputsAux (dictInsert acc n (.str ("<" ++ pyStr t ++ ">"))) tail := by
                      simp only [mockOutputsAux, pySubscript, hn, ht]
                      rfl
                    rw [hstep]
                    exact ih h2 _
      | null => simp [outputWF] at h1
      | bool b => simp [outputWF] at h1
      | int n => simp [outputWF] at h1
      | str s => simp [outputWF] at h1
      | list xs => simp [outputWF] at h1

theorem simulateFound_ok (id : String) (op : PyVal) (h : specWF op = true) :
    ∃ r, simulateFound id op = .ok r := by
  cases op with
  | dict kvs =>
      simp only [specWF, Bool.and_eq_true] at h
      obtain ⟨hin, hout⟩ := h
      have hdef : simulateFound id (.dict kvs) = (do
          let insKvs ← pyItems ((dictLookup kvs "inputs").getD (.dict []))
          let mi ← mockInputsAux [] insKvs
          let outs ← pyIter ((dictLookup kvs "outputs").getD (.list []))
          let mo ← mockOutputsAux [] outs
          pure (jsonDumps 0 (.dict
            [("operation_id", .str id),
             ("description", (dictLookup kvs "description").getD (.str "")),
             ("cypher", (dictLookup kvs "cypher").getD (.str "")),
             ("mock_inputs", .dict mi),
             ("mock_outputs", .dict mo)]))) := rfl
      rw [hdef]
      obtain ⟨insd, hinsd, hinsall⟩ :
          ∃ insd, pyItems ((dictLookup kvs "inputs").getD (.dict [])) = .ok insd
            ∧ (insd.all fun kv => match kv.2 with | .dict _ => true | _ => false) = true := by
        cases hi : dictLookup kvs "inputs" with
        | none => exact ⟨[], rfl, rfl⟩
        | some w =>
            rw [hi] at hin
            cases w with
            | dict insd => exact ⟨insd, rfl, hin⟩
            | null => simp at hin
            | bool b => simp at hin
            | int n => simp at hin
            | str s => simp at hin
            | list xs => simp at hin
      rw [hinsd]
      simp only [ok_bind]
      obtain ⟨mi, hmi⟩ := mockInputsAux_ok insd hinsall []
      rw [hmi]
      simp only [ok_bind]
      obtain ⟨outs, houts, houtall⟩ :
          ∃ outs, pyIter ((dictLookup kvs "outputs").getD (.list [])) = .ok outs
            ∧ (outs.all outputWF) = true := by
        cases ho : dictLookup kvs "outputs" with
        | none => exact ⟨[], rfl, rfl⟩
        | some w =>
            rw [ho] at hout
            cases w with
            | list os => exact ⟨os, rfl, hout⟩
            | null => simp at hout
            | bool b => simp at hout
            | int n => simp at hout
            | str s => simp at hout
            | dict kvs2 => simp at hout
      rw [houts]
      simp only [ok_bind]
      obtain ⟨mo, hmo⟩ := mockOutputsAux_ok outs houtall []
      rw [hmo]
      exact ⟨_, rfl⟩
  | null => simp [specWF] at h
  | bool b => simp [specWF] at h
  | int n => simp [specWF] at h
  | str s => simp [specWF] at h
  | list xs => simp [specWF] at h

/-! ## Claims -/

/-- Claim C1, counterexample: `extract_info` on an id absent from the
operations mapping does not return the bare sentinel string
`No data for {id}`; it returns the `json.dumps` serialization of that
sentinel, which carries surrounding quote characters. -/
theorem C1_sentinel_counterexample :
    extract_info (.parsed (.dict [("operations", .dict [])])) "B" = .ok "\"No data for B\""
    ∧ ("\"No data for B\"" : String) ≠ "No data for B" :=
  ⟨rfl, by decide⟩

/-- Claim C1 (amended): for every contract whose operations mapping does not
contain `id`, `extract_info` returns the JSON serialization of the sentinel
string `No data for {id}` (the sentinel wrapped in quotes by `json.dumps`),
and `simulate_operation` returns exactly the literal string
`No such operation: {id}`. -/
theorem C1_missing_id_sentinels (v : PyVal) (ops : List (String × PyVal)) (id : String)
    (hops : contractOps v = some ops) (hid : dictLookup ops id = none) :
    extract_info (.parsed v) id = .ok (jsonDumps 0 (.str ("No data for " ++ id)))
    ∧ simulate_operation (.parsed v) id = .ok ("No such operation: " ++ id) := by
  refine ⟨?_, simulate_operation_missing v ops id hops hid⟩
  rw [extract_info_parsed v ops id hops, hid]
  rfl

/-- Claim C1, witness: the amended claim at the concrete contract
`{"operations": {"A": {}}}` and the absent id `"B"`. -/
theorem C1_missing_id_sentinels_witness :
    extract_info (.parsed (.dict [("operations", .dict [("A", .dict [])])])) "B"
      = .ok (jsonDumps 0 (.str ("No data for " ++ "B")))
    ∧ simulate_operation (.parsed (.dict [("operations", .dict [("A", .dict [])])])) "B"
      = .ok ("No such operation: " ++ "B") :=
  C1_missing_id_sentinels _ _ "B" rfl rfl

/-- Claim C2, counterexample: an exception does escape a query function — on a
present but unparseable cache file `json.load` raises `JSONDecodeError` out of
`list_operations`, and on a cache file parsing to a JSON array
`data.get("operations", {})` raises `AttributeError`. -/
theorem C2_exception_escape_counterexample :
    list_operations CacheView.malformed = .error .jsonDecodeError
    ∧ list_operations (.parsed (.list [])) = .error .attributeError :=
  ⟨rfl, rfl⟩

/-- Claim C2 (amended): exceptions can escape the lookup operations when the
cached document is malformed or ill-shaped; when the cache is absent, or
parses to a well-formed contract document, none of `list_operations`,
`extract_info` and `simulate_operation` raises (each returns a value), and
`fetch_csv` / `list_plant_zones` are total by construction (their blanket
`except` turns every raised error into `[]`, which the embedding reflects in
their non-fallible return type). -/
theorem C2_lookups_total_on_wellformed (cache : CacheView) (id : String)
    (h : cache = .absent ∨ ∃ v, cache = .parsed v ∧ contractWF v = true) :
    (∃ r, list_operations cache = .ok r) ∧ (∃ r, extract_info cache id = .ok r)
    ∧ (∃ r, simulate_operation cache id = .ok r) := by
  rcases h with rfl | ⟨v, rfl, hwf⟩
  · exact ⟨⟨_, rfl⟩, ⟨_, rfl⟩, ⟨_, rfl⟩⟩
  · obtain ⟨ops, hops, hall⟩ := contractOps_of_WF v hwf
    refine ⟨⟨_, list_operations_parsed v ops hops⟩,
            ⟨_, extract_info_parsed v ops id hops⟩, ?_⟩
    cases hid : dictLookup ops id with
    | none => exact ⟨_, simulate_operation_missing v ops id hops hid⟩
    | some op =>
        obtain ⟨r, hr⟩ := simulateFound_ok id op (specWF_of_lookup ops id op hall hid)
        exact ⟨r, (simulate_operation_found v ops id op hops hid).trans hr⟩

/-- Claim C2, witness: the amended claim at the concrete well-formed contract
`{"operations": {"A": {}}}` and id `"A"`. -/
theorem C2_lookups_total_witness :
    (∃ r, list_operations (.parsed (.dict [("operations", .dict [("A", .dict [])])])) = .ok r)
    ∧ (∃ r, extract_info (.parsed (.dict [("operations", .dict [("A", .dict [])])])) "A" = .ok r)
    ∧ (∃ r, simulate_operation (.parsed (.dict [("operations", .dict [("A", .dict [])])])) "A"
        = .ok r) :=
  C2_lookups_total_on_wellformed _ "A" (Or.inr ⟨_, rfl, rfl⟩)

/-- Claim C3: when the remote fetch fails, `sync_tool_contract` leaves a
pre-existing cache file exactly as it was and returns the failure-annotated
status string instead of raising. -/
theorem C3_failed_sync_preserves_cache (e : String) (s : FsState) (C : String)
    (h : s.cacheFile = some C) :
    (sync_tool_contract (.failure e) s).1.cacheFile = some C
    ∧ (sync_tool_contract (.failure e) s).2
        = "[SYNC ERROR] Failed to fetch tool contract: " ++ e :=
  ⟨h, rfl⟩

/-- Claim C3, witness: a failing refresh over an existing cache file `"OLD"`. -/
theorem C3_failed_sync_preserves_cache_witness :
    (sync_tool_contract (.failure "down") ⟨false, some "OLD"⟩).1.cacheFile = some "OLD"
    ∧ (sync_tool_contract (.failure "down") ⟨false, some "OLD"⟩).2
        = "[SYNC ERROR] Failed to fetch tool contract: " ++ "down" :=
  C3_failed_sync_preserves_cache "down" ⟨false, some "OLD"⟩ "OLD" rfl

/-- Claim C4: when the remote fetch succeeds with payload `P`,
`sync_tool_contract` leaves the cache file holding exactly `P` and reports a
byte count equal to `len(P)`. -/
theorem C4_successful_sync_writes_payload (P : String) (s : FsState) :
    (sync_tool_contract (.success P) s).1.cacheFile = some P
    ∧ (sync_tool_contract (.success P) s).2
        = "[SYNC] Water plant tool contract synced (" ++ toString P.length ++ " bytes)" :=
  ⟨rfl, rfl⟩

/-- Claim C5: on an operation declaring inputs `{"x": {"type": "int"}}` plus a
parameter with no declared type, and outputs `[{"name": "y", "type":
"string"}]`, `simulate_operation` returns the serialized record with
`operation_id`, `description` and `cypher` copied through, `mock_inputs =
{"x": "<int>", "z": "<unknown>"}` and `mock_outputs = {"y": "<string>"}`.
The embedding is a pure function of the cached document and the id, so the
result is deterministic and side-effect-free by construction. -/
theorem C5_simulation_schema_driven (v : PyVal) (ops : List (String × PyVal))
    (id desc cy : String)
    (hops : contractOps v = some ops)
    (hid : dictLookup ops id = some (.dict
      [("description", .str desc), ("cypher", .str cy),
       ("inputs", .dict [("x", .dict [("type", .str "int")]), ("z", .dict [])]),
       ("outputs", .list [.dict [("name", .str "y"), ("type", .str "string")]])])) :
    simulate_operation (.parsed v) id = .ok (jsonDumps 0 (.dict
      [("operation_id", .str id),
       ("description", .str desc),
       ("cypher", .str cy),
       ("mock_inputs", .dict [("x", .str "<int>"), ("z", .str "<unknown>")]),
       ("mock_outputs", .dict [("y", .str "<string>")])])) :=
  (simulate_operation_found v ops id _ hops hid).trans rfl

/-- Claim C5, witness: the schema-driven simulation at a concrete one-operation
contract. -/
theorem C5_simulation_schema_driven_witness :
    simulate_operation (.parsed (.dict [("operations", .dict [("op1", .dict
      [("description", .str "d"), ("cypher", .str "MATCH"),
       ("inputs", .dict [("x", .dict [("type", .str "int")]), ("z", .dict [])]),
       ("outputs", .list [.dict [("name", .str "y"), ("type", .str "string")]])])])]))
      "op1"
      = .ok (jsonDumps 0 (.dict
        [("operation_id", .str "op1"),
         ("description", .str "d"),
         ("cypher", .str "MATCH"),
         ("mock_inputs", .dict [("x", .str "<int>"), ("z", .str "<unknown>")]),
         ("mock_outputs", .dict [("y", .str "<string>")])])) :=
  C5_simulation_schema_driven _ _ "op1" "d" "MATCH" rfl rfl

/-- Claim C6: `fetch_csv` / `list_plant_zones` return the header-keyed rows in
source order for the body `a,b\n1,2\n3,4`, and return the empty list on any
failed fetch (network error or non-2xx status); their return type is
non-fallible, so no exception reaches the caller on any input. -/
theorem C6_csv_rows_and_failures :
    (∀ e file, fetch_csv file (.failure e) = [] ∧ list_plant_zones (.failure e) = [])
    ∧ fetch_csv "nodes_plantzones.csv" (.success "a,b\n1,2\n3,4")
        = [[(some "a", .str "1"), (some "b", .str "2")],
           [(some "a", .str "3"), (some "b", .str "4")]]
    ∧ list_plant_zones (.success "a,b\n1,2\n3,4")
        = [[(some "a", .str "1"), (some "b", .str "2")],
           [(some "a", .str "3"), (some "b", .str "4")]] :=
  ⟨fun _ _ => ⟨rfl, rfl⟩, rfl, rfl⟩

/-- Claim C7: with no cache file present, each lookup returns its in-band
sentinel — `["Tool contract not found."]`, `"Tool contract missing."` and
`"Tool contract not found."` — and none raises, for every argument. -/
theorem C7_missing_cache_sentinels (id : String) :
    list_operations .absent = .ok ["Tool contract not found."]
    ∧ extract_info .absent id = .ok "Tool contract missing."
    ∧ simulate_operation .absent id = .ok "Tool contract not found." :=
  ⟨rfl, rfl, rfl⟩

/-- Claim C8: with the cache present, `list_operations` returns exactly the
keys of the operations mapping in parse order, and the empty list when the
document has no `operations` key. -/
theorem C8_list_operations_keys (d ops : List (String × PyVal)) :
    (dictLookup d "operations" = some (.dict ops) →
      list_operations (.parsed (.dict d)) = .ok (ops.map Prod.fst))
    ∧ (dictLookup d "operations" = none →
      list_operations (.parsed (.dict d)) = .ok []) := by
  constructor
  · intro h
    exact list_operations_parsed _ ops (by simp [contractOps, h])
  · intro h
    exact list_operations_parsed _ [] (by simp [contractOps, h])

/-- Claim C8, witness: the contract `{"operations": {"A": {...}}}` yields
exactly `["A"]`, and a document with no operations key yields `[]`. -/
theorem C8_list_operations_keys_witness :
    list_operations (.parsed (.dict [("operations", .dict [("A", .dict [])])])) = .ok ["A"]
    ∧ list_operations (.parsed (.dict [("other", .null)])) = .ok [] :=
  ⟨(C8_list_operations_keys [("operations", .dict [("A", .dict [])])] [("A", .dict [])]).1 rfl,
   (C8_list_operations_keys [("other", .null)] []).2 rfl⟩

/-- Claim C9: when an operation's outputs sequence declares the same name more
than once, `simulate_operation`'s mock_outputs dict keeps a single entry for
that name whose placeholder comes from the last such output in source order.
The first conjunct ties `simulate_operation` to the comprehension's fold
(`outputsDictAux`), and the others state uniqueness and last-wins for it. -/
theorem C9_duplicate_output_names (id n t : String) (os : List (String × String))
    (_hdup : 2 ≤ (os.filter fun p => p.1 = n).length)
    (hlast : lastVal os n = some t) :
    simulate_operation
        (.parsed (.dict [("operations",
          .dict [(id, .dict [("outputs", .list (mkOutputs os))])])])) id
      = .ok (jsonDumps 0 (.dict
          [("operation_id", .str id),
           ("description", .str ""),
           ("cypher", .str ""),
           ("mock_inputs", .dict []),
           ("mock_outputs", .dict (outputsDictAux [] os))]))
    ∧ countKey (outputsDictAux [] os) n = 1
    ∧ dictLookup (outputsDictAux [] os) n = some (.str ("<" ++ t ++ ">")) := by
  have hlk : dictLookup (outputsDictAux [] os) n = some (.str ("<" ++ t ++ ">")) := by
    rw [outputsDictAux_lookup os [] n, hlast]
  refine ⟨?_, ?_, hlk⟩
  · refine (simulate_operation_found
      (.dict [("operations", .dict [(id, .dict [("outputs", .list (mkOutputs os))])])])
      [(id, .dict [("outputs", .list (mkOutputs os))])] id
      (.dict [("outputs", .list (mkOutputs os))]) rfl (by simp [dictLookup])).trans ?_
    have hdef : simulateFound id (.dict [("outputs", .list (mkOutputs os))])
        = (do
            let mo ← mockOutputsAux [] (mkOutputs os)
            pure (jsonDumps 0 (.dict
              [("operation_id", .str id),
               ("description", .str ""),
               ("cypher", .str ""),
               ("mock_inputs", .dict []),
               ("mock_outputs", .dict mo)]))) := rfl
    rw [hdef, mockOutputsAux_mkOutputs os []]
    rfl
  · have hle := countKey_outputsDictAux_le_one os [] countKey_nil_le_one n
    have hge := one_le_countKey _ n _ hlk
    omega

/-- Claim C9, witness: outputs `[{y, string}, {y, float}]` collapse to the
single entry `y ↦ "<float>"`. -/
theorem C9_duplicate_output_names_witness :
    simulate_operation
        (.parsed (.dict [("operations",
          .dict [("op", .dict [("outputs",
            .list (mkOutputs [("y", "string"), ("y", "float")]))])])])) "op"
      = .ok (jsonDumps 0 (.dict
          [("operation_id", .str "op"),
           ("description", .str ""),
           ("cypher", .str ""),
           ("mock_inputs", .dict []),
           ("mock_outputs", .dict (outputsDictAux [] [("y", "string"), ("y", "float")]))]))
    ∧ countKey (outputsDictAux [] [("y", "string"), ("y", "float")]) "y" = 1
    ∧ dictLookup (outputsDictAux [] [("y", "string"), ("y", "float")]) "y"
        = some (.str ("<" ++ "float" ++ ">")) :=
  C9_duplicate_output_names "op" "y" "float" [("y", "string"), ("y", "float")]
    (by decide) rfl

/-- Claim C10: every invocation of `sync_tool_contract` (success or failure)
leaves the tool directory existing, because `os.makedirs` runs before the
fetch; the cache file is only written on a successful fetch, so a failing
invocation leaves it untouched. -/
theorem C10_sync_creates_dir (resp : HttpResult) (s : FsState) :
    (sync_tool_contract resp s).1.dirExists = true
    ∧ (∀ e, resp = .failure e → (sync_tool_contract resp s).1.cacheFile = s.cacheFile) := by
  constructor
  · cases resp <;> rfl
  · intro e h
    subst h
    rfl

/-- Claim C10, witness: a failing refresh on a state with no tool directory
still ends with the directory existing, and the cache file unchanged. -/
theorem C10_sync_creates_dir_witness :
    (sync_tool_contract (.failure "net down") ⟨false, some "OLD"⟩).1.dirExists = true
    ∧ (sync_tool_contract (.failure "net down") ⟨false, some "OLD"⟩).1.cacheFile = some "OLD" :=
  ⟨(C10_sync_creates_dir (.failure "net down") ⟨false, some "OLD"⟩).1,
   (C10_sync_creates_dir (.failure "net down") ⟨false, some "OLD"⟩).2 "net down" rfl⟩

end WaterPlant
